import Mathlib

/-!
Verification development for the MetricsReloaded measure-computation engine
(`pairwise_measures.py`, `prob_pairwise_measures.py`).

Grids are modelled as one-dimensional arrays (`List ℚ`): every operation of the
source that the claims touch is either voxel-wise (confusion maps, masking,
binning) — for which the array shape is irrelevant — or a dimension-generic
`scipy.ndimage` primitive (`binary_erosion`, `distance_transform_edt`, `label`)
instantiated here on rank-1 grids with a single-axis sampling value, which is a
valid input configuration of the source functions.  Machine floats are modelled
by exact rationals.
-/

namespace MetricsReloaded

/-- np.sum of an array. -/
def npsum (l : List ℚ) : ℚ := l.sum

/-- np.mean of an array: sum divided by element count. -/
def npmean (l : List ℚ) : ℚ := l.sum / l.length

/-- np.max of an array (the empty case is a numpy error, never reached here). -/
def npmax : List ℚ → ℚ
  | [] => 0
  | x :: xs => xs.foldl max x

/-- np.min of an array (the empty case is a numpy error, never reached here). -/
def npmin : List ℚ → ℚ
  | [] => 0
  | x :: xs => xs.foldl min x

/-! ## BinaryPairwiseMeasures: confusion maps and counts -/

/-- `__fp_map`: voxel-wise indicator of `(pred - ref) > 0`. -/
def fp_map (pred ref : List ℚ) : List ℚ :=
  List.zipWith (fun p r => if p - r > 0 then (1 : ℚ) else 0) pred ref

/-- `__fn_map`: voxel-wise indicator of `(ref - pred) > 0`. -/
def fn_map (pred ref : List ℚ) : List ℚ :=
  List.zipWith (fun p r => if r - p > 0 then (1 : ℚ) else 0) pred ref

/-- `__tp_map`: voxel-wise indicator of `(ref + pred) > 1`. -/
def tp_map (pred ref : List ℚ) : List ℚ :=
  List.zipWith (fun p r => if r + p > 1 then (1 : ℚ) else 0) pred ref

/-- `__tn_map`: voxel-wise indicator of `(ref + pred) < 0.5`. -/
def tn_map (pred ref : List ℚ) : List ℚ :=
  List.zipWith (fun p r => if r + p < 1/2 then (1 : ℚ) else 0) pred ref

/-- `fp`: sum of the false-positive map. -/
def fp (pred ref : List ℚ) : ℚ := npsum (fp_map pred ref)

/-- `fn`: sum of the false-negative map. -/
def fn (pred ref : List ℚ) : ℚ := npsum (fn_map pred ref)

/-- `tp`: sum of the true-positive map. -/
def tp (pred ref : List ℚ) : ℚ := npsum (tp_map pred ref)

/-- `tn`: sum of the true-negative map. -/
def tn (pred ref : List ℚ) : ℚ := npsum (tn_map pred ref)

/-- `positive_predictive_values`: returns the sentinel −1 when the comparison
was constructed with `empty=True`, otherwise `tp / (tp + fp)`. -/
def positive_predictive_values (flag_empty : Bool) (pred ref : List ℚ) : ℚ :=
  if flag_empty then -1 else tp pred ref / (tp pred ref + fp pred ref)

/-- Voxel-wise partition: on binary values the four confusion indicators
sum to one. -/
lemma confusion_cell_partition (p r : ℚ) (hp : p = 0 ∨ p = 1) (hr : r = 0 ∨ r = 1) :
    (if r + p > 1 then (1 : ℚ) else 0) + (if p - r > 0 then (1 : ℚ) else 0) +
      (if r + p < 1/2 then (1 : ℚ) else 0) + (if r - p > 0 then (1 : ℚ) else 0) = 1 := by
  rcases hp with hp | hp <;> rcases hr with hr | hr <;> subst hp <;> subst hr <;> norm_num

/-- C7: For every pair of equal-shape binary masks with voxel values in {0,1},
the four confusion counts partition the grid: `tp + fp + tn + fn` equals the
total voxel count. -/
theorem confusion_counts_partition_grid (pred ref : List ℚ)
    (hp : ∀ x ∈ pred, x = 0 ∨ x = 1) (hr : ∀ x ∈ ref, x = 0 ∨ x = 1)
    (hl : pred.length = ref.length) :
    tp pred ref + fp pred ref + tn pred ref + fn pred ref = pred.length := by
  induction pred generalizing ref with
  | nil =>
    cases ref with
    | nil => simp [tp, fp, tn, fn, tp_map, fp_map, tn_map, fn_map, npsum]
    | cons r rs => simp at hl
  | cons p ps ih =>
    cases ref with
    | nil => simp at hl
    | cons r rs =>
      have hcell := confusion_cell_partition p r (hp p (List.mem_cons_self p ps))
        (hr r (List.mem_cons_self r rs))
      have hrec := ih rs (fun x hx => hp x (List.mem_cons_of_mem p hx))
        (fun x hx => hr x (List.mem_cons_of_mem r hx)) (by simpa using hl)
      simp only [tp, fp, tn, fn, tp_map, fp_map, tn_map, fn_map, npsum,
        List.zipWith_cons_cons, List.sum_cons, List.length_cons] at hrec ⊢
      push_cast
      linarith [hcell, hrec]

/-- C7 witness: concrete 6-voxel binary masks (the spec scenario
`ref = [1,1,0,0,0,0]`, `pred = [1,0,0,0,1,0]`). -/
theorem confusion_counts_partition_grid_witness :
    tp [1, 0, 0, 0, 1, 0] [1, 1, 0, 0, 0, 0] + fp [1, 0, 0, 0, 1, 0] [1, 1, 0, 0, 0, 0] +
      tn [1, 0, 0, 0, 1, 0] [1, 1, 0, 0, 0, 0] + fn [1, 0, 0, 0, 1, 0] [1, 1, 0, 0, 0, 0] =
      ([1, 0, 0, 0, 1, 0] : List ℚ).length :=
  confusion_counts_partition_grid [1, 0, 0, 0, 1, 0] [1, 1, 0, 0, 0, 0]
    (by decide) (by decide) (by decide)

/-- C8: Whenever the comparison carries `empty=True`, `positive_predictive_values`
returns the sentinel −1 (for every mask pair, in particular all-zero ones);
the early return precedes the `tp/(tp+fp)` division, so no NaN can arise. -/
theorem ppv_empty_flag_sentinel (pred ref : List ℚ) :
    positive_predictive_values true pred ref = -1 := rfl

/-! ## MorphologyOps: border extraction (rank-1 instantiation) -/

/-- `scipy.ndimage.binary_erosion` with the default connectivity-1 structuring
element and `border_value=0`, on a rank-1 grid: a voxel survives when it and
both its axis neighbours (voxels outside the grid count as background) are
foreground (nonzero). -/
def binary_erosion (g : List ℚ) : List ℚ :=
  (List.range g.length).map (fun i =>
    if 1 ≤ i ∧ g.getD (i - 1) 0 ≠ 0 ∧ g.getD i 0 ≠ 0 ∧ g.getD (i + 1) 0 ≠ 0
    then (1 : ℚ) else 0)

/-- `MorphologyOps.border_map`: the binary map minus its one-iteration binary
erosion (the `int8` cast of the constructor is the identity on binary masks). -/
def border_map (g : List ℚ) : List ℚ :=
  List.zipWith (fun b e => b - e) g (binary_erosion g)

/-- `boundary_iou`: sum of the product of the two border maps divided by the
sum of the two border-map sums (as written in the source: the denominator does
not subtract the intersection). -/
def boundary_iou (pred ref : List ℚ) : ℚ :=
  npsum (List.zipWith (· * ·) (border_map ref) (border_map pred)) /
    (npsum (border_map ref) + npsum (border_map pred))

/-- Number of voxels in both border maps (|border_ref ∧ border_pred|). -/
def border_intersection (pred ref : List ℚ) : ℚ :=
  npsum (List.zipWith (· * ·) (border_map ref) (border_map pred))

/-- The quantity the claim describes (refinement definition, following the
spec's words): the standard Jaccard index over border voxels,
|border_ref ∧ border_pred| / (|border_ref| + |border_pred| − |border_ref ∧ border_pred|). -/
def boundary_iou_claimed (pred ref : List ℚ) : ℚ :=
  border_intersection pred ref /
    (npsum (border_map ref) + npsum (border_map pred) - border_intersection pred ref)

/-- C3 counterexample: for the identical masks `pred = ref = [1,1,0]` the border
maps coincide and are nonempty, so the claimed Jaccard form gives 1, but
`boundary_iou` returns 1/2: the code's denominator does not subtract the
intersection. -/
theorem boundary_iou_not_jaccard_counterexample :
    boundary_iou [1, 1, 0] [1, 1, 0] = 1/2 ∧
      boundary_iou_claimed [1, 1, 0] [1, 1, 0] = 1 := by
  norm_num [boundary_iou, boundary_iou_claimed, border_intersection, border_map,
    binary_erosion, npsum, List.range_succ]

/-- C3 amended: `boundary_iou` returns |border_ref ∧ border_pred| divided by
(|border_ref| + |border_pred|) — without subtracting the intersection —
equivalently J / (1 + J) where J is the standard Jaccard index over border
voxels, whenever that Jaccard index is well defined (nonnegative intersection,
positive border union). -/
theorem boundary_iou_eq_jaccard_over_one_plus_jaccard (pred ref : List ℚ)
    (hI : 0 ≤ border_intersection pred ref)
    (hU : 0 < npsum (border_map ref) + npsum (border_map pred) - border_intersection pred ref) :
    boundary_iou pred ref =
      boundary_iou_claimed pred ref / (1 + boundary_iou_claimed pred ref) := by
  unfold boundary_iou boundary_iou_claimed border_intersection at *
  set I := npsum (List.zipWith (· * ·) (border_map ref) (border_map pred)) with hIdef
  set R := npsum (border_map ref) with hRdef
  set P := npsum (border_map pred) with hPdef
  have hU' : R + P - I ≠ 0 := ne_of_gt hU
  have hRP : R + P ≠ 0 := by nlinarith
  have h1J : 1 + I / (R + P - I) = (R + P) / (R + P - I) := by
    field_simp
  rw [h1J, div_div_div_eq]
  rw [div_eq_div_iff hRP (by positivity)]
  ring

/-- C3 amended-theorem witness: the identical-mask pair `[1,1,0]`. -/
theorem boundary_iou_eq_jaccard_over_one_plus_jaccard_witness :
    boundary_iou [1, 1, 0] [1, 1, 0] =
      boundary_iou_claimed [1, 1, 0] [1, 1, 0] /
        (1 + boundary_iou_claimed [1, 1, 0] [1, 1, 0]) :=
  boundary_iou_eq_jaccard_over_one_plus_jaccard [1, 1, 0] [1, 1, 0]
    (by norm_num [border_intersection, border_map, binary_erosion, npsum, List.range_succ])
    (by norm_num [border_intersection, border_map, binary_erosion, npsum, List.range_succ])

/-! ## Distance-field layer -/

/-- `scipy.ndimage.distance_transform_edt` on a rank-1 grid with single-axis
sampling `pixdim`: every foreground (nonzero) voxel is replaced by the scaled
distance to the nearest background (zero) voxel; background voxels get 0.
(An all-foreground input never occurs on the paths modelled here.) -/
def distance_transform_edt (g : List ℚ) (pixdim : ℚ) : List ℚ :=
  (List.range g.length).map (fun i =>
    if g.getD i 0 = 0 then 0
    else npmin (((List.range g.length).filter (fun j => g.getD j 0 = 0)).map
      (fun j => |(i : ℚ) - (j : ℚ)| * pixdim)))

/-- `border_distance`: border maps of both masks, the Euclidean distance
transform applied — as written in the source — to the border maps themselves
(the complements `oppose_ref = 1 - ref` and `oppose_pred = 1 - pred` are
computed but never used), and each distance field masked by the opposite
border.  Returns (distance_border_ref, distance_border_pred, border_ref,
border_pred). -/
def border_distance (pred ref : List ℚ) (pixdim : ℚ) :
    List ℚ × List ℚ × List ℚ × List ℚ :=
  let border_ref := border_map ref
  let border_pred := border_map pred
  let distance_ref := distance_transform_edt border_ref pixdim
  let distance_pred := distance_transform_edt border_pred pixdim
  let distance_border_pred := List.zipWith (· * ·) border_ref distance_pred
  let distance_border_ref := List.zipWith (· * ·) border_pred distance_ref
  (distance_border_ref, distance_border_pred, border_ref, border_pred)

/-- The quantity the claim describes (refinement definition, following the
spec's words): the physical distance from voxel `i` to the nearest nonzero
voxel of the border mask `b` (i.e. the Euclidean distance transform of the
complement of the border mask, evaluated at `i`). -/
def nearest_border_distance (b : List ℚ) (pixdim : ℚ) (i : ℕ) : ℚ :=
  npmin (((List.range b.length).filter (fun j => b.getD j 0 ≠ 0)).map
    (fun j => |(i : ℚ) - (j : ℚ)| * pixdim))

/-- `np.percentile` with the default linear interpolation: sort ascending and
interpolate at fractional rank `q/100 * (n-1)`. -/
def np_percentile (l : List ℚ) (q : ℚ) : ℚ :=
  let s := List.insertionSort (· ≤ ·) l
  let r := q / 100 * ((s.length : ℚ) - 1)
  let lo := (⌊r⌋).toNat
  s.getD lo 0 + (r - (lo : ℚ)) * (s.getD (lo + 1) 0 - s.getD lo 0)

/-- Boolean-mask selection `values[ref + pred > 0]`. -/
def select_union_pos (vals pred ref : List ℚ) : List ℚ :=
  ((List.zip vals (List.zipWith (fun r p => r + p) ref pred)).filter
    (fun x => x.2 > 0)).map Prod.fst

/-- `measured_distance`: returns the Python tuple as a list.  When
`sum(pred + ref) == 0` the source returns the 3-tuple `(0, 0, 0)`; otherwise it
returns the 4-tuple (hausdorff_distance, average_distance,
hausdorff_distance_95, masd). -/
def measured_distance (pred ref : List ℚ) (pixdim : ℚ) (perc : ℚ) : List ℚ :=
  if npsum (List.zipWith (· + ·) pred ref) = 0 then [0, 0, 0]
  else
    let bd := border_distance pred ref pixdim
    let ref_border_dist := bd.1
    let pred_border_dist := bd.2.1
    let ref_border := bd.2.2.1
    let pred_border := bd.2.2.2
    let average_distance := (npsum ref_border_dist + npsum pred_border_dist) /
      npsum (List.zipWith (· + ·) pred_border ref_border)
    let masd := npmean ref_border_dist + npmean pred_border_dist
    let hausdorff_distance := max (npmax ref_border_dist) (npmax pred_border_dist)
    let hausdorff_distance_95 := max
      (np_percentile (select_union_pos ref_border_dist pred ref) perc)
      (np_percentile (select_union_pos pred_border_dist pred ref) perc)
    [hausdorff_distance, average_distance, hausdorff_distance_95, masd]

/-- `measured_hausdorff_distance`: element 0 of `measured_distance()`;
`none` models a Python IndexError. -/
def measured_hausdorff_distance (pred ref : List ℚ) (pixdim : ℚ) : Option ℚ :=
  (measured_distance pred ref pixdim 95)[0]?

/-- `measured_average_distance`: element 1 of `measured_distance()`. -/
def measured_average_distance (pred ref : List ℚ) (pixdim : ℚ) : Option ℚ :=
  (measured_distance pred ref pixdim 95)[1]?

/-- `measured_hausdorff_distance_perc`: element 2 of `measured_distance(perc)`
with `perc` from `dict_args['hd']`, defaulting to 95. -/
def measured_hausdorff_distance_perc (hdArg : Option ℚ) (pred ref : List ℚ)
    (pixdim : ℚ) : Option ℚ :=
  (measured_distance pred ref pixdim (hdArg.getD 95))[2]?

/-- `measured_masd`: element 3 of `measured_distance()`; `none` models a
Python IndexError. -/
def measured_masd (pred ref : List ℚ) (pixdim : ℚ) : Option ℚ :=
  (measured_distance pred ref pixdim 95)[3]?

/-- C1: the distance-field layer does not compute the distance transform of the
complement of each border mask.  For `pred = ref = [1,1,0]` (unit spacing) the
two borders are `[1,1,0]` and coincide; voxel 0 is a border voxel of both
masks, so the claimed field value there — the physical distance to the nearest
border voxel of the other mask — is 0, but `border_distance` records 2 (the
distance transform was applied to the border mask itself, not its complement,
so a coinciding border voxel gets its distance to the nearest non-border
voxel). -/
theorem border_distance_not_complement_edt :
    (border_distance [1, 1, 0] [1, 1, 0] 1).2.2.1 = [1, 1, 0] ∧
      (border_distance [1, 1, 0] [1, 1, 0] 1).2.2.2 = [1, 1, 0] ∧
      (border_distance [1, 1, 0] [1, 1, 0] 1).2.1 = [2, 1, 0] ∧
      nearest_border_distance (border_map [1, 1, 0]) 1 0 = 0 := by
  norm_num [border_distance, nearest_border_distance, border_map, binary_erosion,
    distance_transform_edt, npmin, List.range_succ, List.filter]

/-- C2: the Hausdorff distance of a mask compared with itself is not 0: for
`A = [1,1,0]` (unit spacing) `measured_hausdorff_distance(A, A)` returns 2,
because the directional distance fields come from the distance transform of the
border mask itself rather than of its complement. -/
theorem hausdorff_self_not_zero :
    measured_hausdorff_distance [1, 1, 0] [1, 1, 0] 1 = some 2 := by
  norm_num [measured_hausdorff_distance, measured_distance, border_distance,
    border_map, binary_erosion, distance_transform_edt, npsum, npmin, npmax,
    List.range_succ, List.filter]

/-- C4: on an entirely empty pair `measured_distance` short-circuits to the
3-tuple `(0,0,0)`; the accessors for hd, assd and hd_perc then return 0, but
`measured_masd` reads element 3, which does not exist in that tuple (a Python
IndexError, modelled as `none`) — it does not return the claimed zero result. -/
theorem empty_pair_distance_metrics :
    measured_hausdorff_distance [0, 0] [0, 0] 1 = some 0 ∧
      measured_average_distance [0, 0] [0, 0] 1 = some 0 ∧
      measured_hausdorff_distance_perc none [0, 0] [0, 0] 1 = some 0 ∧
      measured_masd [0, 0] [0, 0] 1 = none := by
  norm_num [measured_hausdorff_distance, measured_average_distance,
    measured_hausdorff_distance_perc, measured_masd, measured_distance, npsum]

/-! ## Connected-component layer -/

/-- Helper for `scipy.ndimage.label` on a rank-1 grid: walk the array carrying
whether the previous voxel was foreground and the number of components so far. -/
def labelWalk : List ℚ → Bool → ℕ → List ℕ × ℕ
  | [], _, c => ([], c)
  | v :: vs, prev, c =>
    if v ≠ 0 then
      let c2 := if prev then c else c + 1
      let rest := labelWalk vs true c2
      (c2 :: rest.1, rest.2)
    else
      let rest := labelWalk vs false c
      (0 :: rest.1, rest.2)

/-- `scipy.ndimage.label` on a rank-1 grid (`MorphologyOps.foreground_component`):
maximal runs of nonzero voxels get labels 1, 2, ... in order; background stays
0; also returns the number of components. -/
def foreground_component (g : List ℚ) : List ℕ × ℕ := labelWalk g false 0

/-- `_connected_components`: the two labelings and the voxel-wise intersection
`init = pred * ref`. -/
def connected_components_of (pred ref : List ℚ) :
    (List ℕ × ℕ) × (List ℕ × ℕ) × List ℚ :=
  (foreground_component ref, foreground_component pred,
    List.zipWith (· * ·) pred ref)

/-- `connected_elements`: per-component confusion counts.  Matched labels are
the distinct positive values of `labels * init`; the candidate label lists are
`range(1, count + 1)`, i.e. all labels. Returns (#TP ref components,
#FP pred components, #FN ref components). -/
def connected_elements (pred ref : List ℚ) : ℕ × ℕ × ℕ :=
  let cc := connected_components_of pred ref
  let blobs_ref := cc.1
  let blobs_pred := cc.2.1
  let init := cc.2.2
  let list_blobs_ref := List.range' 1 blobs_ref.2
  let list_blobs_pred := List.range' 1 blobs_pred.2
  let mul_blobs_ref := List.zipWith (fun lab v => (lab : ℚ) * v) blobs_ref.1 init
  let mul_blobs_pred := List.zipWith (fun lab v => (lab : ℚ) * v) blobs_pred.1 init
  let list_tp_ref := (mul_blobs_ref.filter (fun x => x > 0)).dedup
  let list_tp_pred := (mul_blobs_pred.filter (fun x => x > 0)).dedup
  let list_fn := list_blobs_ref.filter (fun x => ¬ ((x : ℚ) ∈ list_tp_ref))
  let list_fp := list_blobs_pred.filter (fun x => ¬ ((x : ℚ) ∈ list_tp_pred))
  (list_tp_ref.length, list_fp.length, list_fn.length)

/-- `connected_errormaps`: the TP/FN/FP component error maps.  As written in
the source the candidate label lists are `range(1, count)` — excluding the
highest label of each labeling (unlike `connected_elements`, which uses
`range(1, count + 1)`). Returns (tpc_map, fnc_map, fpc_map). -/
def connected_errormaps (pred ref : List ℚ) : List ℚ × List ℚ × List ℚ :=
  let cc := connected_components_of pred ref
  let blobs_ref := cc.1
  let blobs_pred := cc.2.1
  let init := cc.2.2
  let list_blobs_ref := List.range' 1 (blobs_ref.2 - 1)
  let list_blobs_pred := List.range' 1 (blobs_pred.2 - 1)
  let mul_blobs_ref := List.zipWith (fun lab v => (lab : ℚ) * v) blobs_ref.1 init
  let mul_blobs_pred := List.zipWith (fun lab v => (lab : ℚ) * v) blobs_pred.1 init
  let list_tp_ref := (mul_blobs_ref.filter (fun x => x > 0)).dedup
  let list_tp_pred := (mul_blobs_pred.filter (fun x => x > 0)).dedup
  let list_fn := list_blobs_ref.filter (fun x => ¬ ((x : ℚ) ∈ list_tp_ref))
  let list_fp := list_blobs_pred.filter (fun x => ¬ ((x : ℚ) ∈ list_tp_pred))
  let tpc_map := List.zipWith
    (fun lr lp => if ((lr : ℚ) ∈ list_tp_ref) ∨ ((lp : ℚ) ∈ list_tp_pred)
      then (1 : ℚ) else 0) blobs_ref.1 blobs_pred.1
  let fnc_map := blobs_ref.1.map (fun lab => if lab ∈ list_fn then (1 : ℚ) else 0)
  let fpc_map := blobs_pred.1.map (fun lab => if lab ∈ list_fp then (1 : ℚ) else 0)
  (tpc_map, fnc_map, fpc_map)

/-- `detection_error`: (DEFN + DEFP, DEFP, DEFN), the summed voxel counts of
the unmatched-component error maps. -/
def detection_error (pred ref : List ℚ) : ℚ × ℚ × ℚ :=
  let m := connected_errormaps pred ref
  let defn := npsum m.2.1
  let defp := npsum m.2.2
  (defn + defp, defp, defn)

/-- C5: `detection_error` does not count the voxels of every unmatched
component.  For `pred = [1,0,0]`, `ref = [1,0,1]` the reference labeling has
two components (labels 1 and 2); component 2 (the voxel at index 2) does not
intersect `pred ∧ ref`, and `connected_elements` accordingly reports one FN
component — yet `detection_error` returns (0, 0, 0), because
`connected_errormaps` iterates labels over `range(1, count)`, dropping the
highest label of each labeling from the unmatched lists. -/
theorem detection_error_drops_highest_label :
    detection_error [1, 0, 0] [1, 0, 1] = (0, 0, 0) ∧
      connected_elements [1, 0, 0] [1, 0, 1] = (1, 0, 1) := by
  norm_num [detection_error, connected_errormaps, connected_elements,
    connected_components_of, foreground_component, labelWalk, npsum,
    List.range', List.filter, List.dedup]

/-! ## ProbabilityPairwiseMeasures: thresholded confusion and threshold sweep -/

/-- `__tp_map_thr`: indicator of `ref + (pred >= thresh) > 1`. -/
def tp_map_thr (pred ref : List ℚ) (thresh : ℚ) : List ℚ :=
  List.zipWith (fun p r => if r + (if thresh ≤ p then (1 : ℚ) else 0) > 1
    then (1 : ℚ) else 0) pred ref

/-- `__fp_map_thr`: indicator of `(pred >= thresh) - ref > 0`. -/
def fp_map_thr (pred ref : List ℚ) (thresh : ℚ) : List ℚ :=
  List.zipWith (fun p r => if (if thresh ≤ p then (1 : ℚ) else 0) - r > 0
    then (1 : ℚ) else 0) pred ref

/-- `__tn_map_thr`: indicator of `ref + (pred >= thresh) < 0.5`. -/
def tn_map_thr (pred ref : List ℚ) (thresh : ℚ) : List ℚ :=
  List.zipWith (fun p r => if r + (if thresh ≤ p then (1 : ℚ) else 0) < 1/2
    then (1 : ℚ) else 0) pred ref

/-- `tp_thr`: sum of the thresholded true-positive map. -/
def tp_thr (pred ref : List ℚ) (thresh : ℚ) : ℚ := npsum (tp_map_thr pred ref thresh)

/-- `fp_thr`: sum of the thresholded false-positive map. -/
def fp_thr (pred ref : List ℚ) (thresh : ℚ) : ℚ := npsum (fp_map_thr pred ref thresh)

/-- `tn_thr`: sum of the thresholded true-negative map. -/
def tn_thr (pred ref : List ℚ) (thresh : ℚ) : ℚ := npsum (tn_map_thr pred ref thresh)

/-- `n_pos_ref` of the probabilistic facade: `np.sum(ref)`. -/
def n_pos_ref (ref : List ℚ) : ℚ := npsum ref

/-- `n_neg_ref`: `np.sum(1 - ref)`. -/
def n_neg_ref (ref : List ℚ) : ℚ := npsum (ref.map (fun r => 1 - r))

/-- `sensitivity_thr`: `tp_thr / n_pos_ref`. -/
def sensitivity_thr (pred ref : List ℚ) (thresh : ℚ) : ℚ :=
  tp_thr pred ref thresh / n_pos_ref ref

/-- `specificity_thr`: `tn_thr / n_neg_ref`. -/
def specificity_thr (pred ref : List ℚ) (thresh : ℚ) : ℚ :=
  tn_thr pred ref thresh / n_neg_ref ref

/-- `positive_predictive_values_thr`: −1 under the empty flag, else
`tp_thr / (tp_thr + fp_thr)`. -/
def positive_predictive_values_thr (flag_empty : Bool) (pred ref : List ℚ)
    (thresh : ℚ) : ℚ :=
  if flag_empty then -1
  else tp_thr pred ref thresh / (tp_thr pred ref thresh + fp_thr pred ref thresh)

/-- `fppi_thr` with `case=None` on a rank-1 grid: the reshape to
`(-1, ref.shape[-1])` keeps one row, so the per-image false-positive mean is
the mean of the thresholded false-positive map. -/
def fppi_thr (pred ref : List ℚ) (thresh : ℚ) : ℚ :=
  npmean (fp_map_thr pred ref thresh)

/-- `np.unique`: the sorted list of distinct values. -/
def np_unique (l : List ℚ) : List ℚ :=
  (List.insertionSort (· ≤ ·) l).dedup

/-- `np.unique(·, return_counts=True)`: each distinct value paired with its
multiplicity. -/
def np_unique_counts (l : List ℚ) : List (ℚ × ℕ) :=
  (np_unique l).map (fun v => (v, l.count v))

/-- The threshold-coalescing loop of `all_multi_threshold_values`: accumulate
value counts until the running count reaches `numb_samples_temp`, then emit the
last retained value and reset the count (exactly as the source loop does,
including not counting the element consumed on an emitting step). -/
def coalesce : List (ℚ × ℕ) → ℚ → ℚ → ℚ → List ℚ → List ℚ
  | [], _, _, _, acc => acc
  | (f, c) :: rest, limit, current, last, acc =>
    if current < limit then coalesce rest limit (current + c) f acc
    else coalesce rest limit 0 last (acc ++ [last])

/-- Threshold selection of `all_multi_threshold_values`: every distinct
prediction value when below the caps, otherwise the coalesced list seeded
with `[0]`. -/
def selected_thresholds (pred ref : List ℚ)
    (max_number_samples max_number_thresh : ℕ) : List ℚ :=
  let unique_thresh := np_unique pred
  if unique_thresh.length < max_number_thresh then unique_thresh
  else if ref.length < max_number_samples then unique_thresh
  else coalesce (np_unique_counts pred)
    ((pred.length : ℚ) / (max_number_thresh : ℚ)) 0 0 [0]

/-- `np.sort(unique_new_thresh)[::-1]`: the selected thresholds in decreasing
order. -/
def sweep_thresholds (pred ref : List ℚ)
    (max_number_samples max_number_thresh : ℕ) : List ℚ :=
  (List.insertionSort (· ≤ ·)
    (selected_thresholds pred ref max_number_samples max_number_thresh)).reverse

/-- `all_multi_threshold_values`: the operating-point curve — the decreasing
threshold list and, for each threshold, sensitivity, specificity, PPV and
FPPI. -/
def all_multi_threshold_values (flag_empty : Bool) (pred ref : List ℚ)
    (max_number_samples max_number_thresh : ℕ) :
    List ℚ × List ℚ × List ℚ × List ℚ × List ℚ :=
  let ts := sweep_thresholds pred ref max_number_samples max_number_thresh
  (ts, ts.map (sensitivity_thr pred ref), ts.map (specificity_thr pred ref),
    ts.map (positive_predictive_values_thr flag_empty pred ref),
    ts.map (fppi_thr pred ref))

/-- Summed `zipWith` maps compare pointwise. -/
lemma zipWith_sum_mono (f g : ℚ → ℚ → ℚ) (h : ∀ p r, f p r ≤ g p r) :
    ∀ (l₁ l₂ : List ℚ), (List.zipWith f l₁ l₂).sum ≤ (List.zipWith g l₁ l₂).sum := by
  intro l₁
  induction l₁ with
  | nil => intro l₂; simp
  | cons p ps ih =>
    intro l₂
    cases l₂ with
    | nil => simp
    | cons r rs =>
      simp only [List.zipWith_cons_cons, List.sum_cons]
      exact add_le_add (h p r) (ih rs)

/-- The thresholded true-positive count is antitone in the threshold. -/
lemma tp_thr_antitone (pred ref : List ℚ) {t₁ t₂ : ℚ} (h : t₁ ≤ t₂) :
    tp_thr pred ref t₂ ≤ tp_thr pred ref t₁ := by
  unfold tp_thr tp_map_thr npsum
  refine zipWith_sum_mono _ _ (fun p r => ?_) pred ref
  have hi : (if t₂ ≤ p then (1 : ℚ) else 0) ≤ (if t₁ ≤ p then (1 : ℚ) else 0) := by
    by_cases h2 : t₂ ≤ p
    · simp [h2, le_trans h h2]
    · by_cases h1 : t₁ ≤ p <;> simp [h1, h2]
  by_cases hc2 : r + (if t₂ ≤ p then (1 : ℚ) else 0) > 1
  · have hc1 : r + (if t₁ ≤ p then (1 : ℚ) else 0) > 1 := by linarith
    simp [hc2, hc1]
  · by_cases hc1 : r + (if t₁ ≤ p then (1 : ℚ) else 0) > 1 <;> simp [hc2, hc1]

/-- Sensitivity is antitone in the threshold whenever the reference voxel
values are nonnegative. -/
lemma sensitivity_thr_antitone (pred ref : List ℚ) (href : ∀ r ∈ ref, 0 ≤ r)
    {t₁ t₂ : ℚ} (h : t₁ ≤ t₂) :
    sensitivity_thr pred ref t₂ ≤ sensitivity_thr pred ref t₁ := by
  unfold sensitivity_thr
  exact div_le_div_of_nonneg_right (tp_thr_antitone pred ref h)
    (List.sum_nonneg href)

/-- C6: along the operating-point curve built by `all_multi_threshold_values`
(for a reference grid with nonnegative voxel values) the emitted threshold
list is decreasing and the sensitivity sequence is non-decreasing along that
emitted order — i.e. sensitivity is non-increasing as the decision threshold
increases, because the thresholded true-positive count with `pred >= t` is
antitone in `t`. -/
theorem sweep_sensitivity_monotone (flag_empty : Bool) (pred ref : List ℚ)
    (max_number_samples max_number_thresh : ℕ) (href : ∀ r ∈ ref, 0 ≤ r) :
    List.Sorted (fun a b => b ≤ a)
        (all_multi_threshold_values flag_empty pred ref
          max_number_samples max_number_thresh).1 ∧
      List.Sorted (· ≤ ·)
        (all_multi_threshold_values flag_empty pred ref
          max_number_samples max_number_thresh).2.1 := by
  have hsorted : List.Sorted (fun a b => b ≤ a)
      (sweep_thresholds pred ref max_number_samples max_number_thresh) := by
    unfold sweep_thresholds
    rw [List.Sorted, List.pairwise_reverse]
    exact List.sorted_insertionSort (· ≤ ·) _
  constructor
  · exact hsorted
  · exact List.Pairwise.map _
      (fun a b hba => sensitivity_thr_antitone pred ref href hba) hsorted

/-- C6 witness: the sweep over `pred = [1/2, 1/5]`, `ref = [1, 0]` with the
default caps. -/
theorem sweep_sensitivity_monotone_witness :
    List.Sorted (fun a b => b ≤ a)
        (all_multi_threshold_values false [1/2, 1/5] [1, 0] 150 1500).1 ∧
      List.Sorted (· ≤ ·)
        (all_multi_threshold_values false [1/2, 1/5] [1, 0] 150 1500).2.1 :=
  sweep_sensitivity_monotone false [1/2, 1/5] [1, 0] 150 1500
    (by norm_num)

/-! ## Expected calibration error -/

/-- `np.arange(0, 1.00001, 1.0/nbins)`: the bin-edge grid (`len = ceil(stop/step)`
per the numpy contract; floats modelled exactly by rationals). -/
def ece_range (nbins : ℕ) : List ℚ :=
  (List.range (⌈(100001 : ℚ) / 100000 / (1 / (nbins : ℚ))⌉₊)).map
    (fun k : ℕ => (k : ℚ) * (1 / (nbins : ℚ)))

/-- `zip(range_values[:-1], range_values[1:])`: adjacent bin-edge pairs. -/
def ece_bins (nbins : ℕ) : List (ℚ × ℚ) :=
  List.zip (ece_range nbins) (ece_range nbins).tail

/-- The voxels a calibration bin selects: prediction–reference pairs whose
prediction lies in `(lo, hi]` (the source's `np.where(l < pred <= u, ·, -1)`
followed by dropping the −1 markers). -/
def ece_sel (pred ref : List ℚ) (lo hi : ℚ) : List (ℚ × ℚ) :=
  (List.zip pred ref).filter (fun pr => lo < pr.1 ∧ pr.1 ≤ hi)

/-- One bin's contribution to `expectation_calibration_error`: 0 for an empty
bin, otherwise the sample count times the absolute difference between the
empirical positive rate and the mean predicted probability of the bin. -/
def ece_bin_value (pred ref : List ℚ) (lo hi : ℚ) : ℚ :=
  if (ece_sel pred ref lo hi).length = 0 then 0
  else ((ece_sel pred ref lo hi).length : ℚ) *
    |((ece_sel pred ref lo hi).map Prod.snd).sum / ((ece_sel pred ref lo hi).length : ℚ) -
      npmean ((ece_sel pred ref lo hi).map Prod.fst)|

/-- `expectation_calibration_error`: sum of the per-bin weighted errors divided
by the total number of selected samples. -/
def expectation_calibration_error (nbins : ℕ) (pred ref : List ℚ) : ℚ :=
  ((ece_bins nbins).map (fun b => ece_bin_value pred ref b.1 b.2)).sum /
    (((ece_bins nbins).map (fun b => ((ece_sel pred ref b.1 b.2).length : ℚ))).sum)

/-- Sum of a constant list. -/
lemma list_sum_of_const (l : List ℚ) (c : ℚ) (h : ∀ x ∈ l, x = c) :
    l.sum = l.length * c := by
  induction l with
  | nil => simp
  | cons x xs ih =>
    have hx := h x (List.mem_cons_self x xs)
    have hs := ih (fun y hy => h y (List.mem_cons_of_mem x hy))
    simp only [List.sum_cons, List.length_cons, hx, hs]
    push_cast
    ring

/-- C9: with a single calibration bin, predictions all equal to 0.7 and a
reference with empirical positive rate 0.5, `expectation_calibration_error`
returns |0.5 − 0.7| = 0.2. -/
theorem single_bin_calibration (pred ref : List ℚ)
    (hall : ∀ p ∈ pred, p = 7/10) (hlen : ref.length = pred.length)
    (hpos : 0 < pred.length) (hrate : ref.sum / (pred.length : ℚ) = 1/2) :
    expectation_calibration_error 1 pred ref = 1/5 := by
  have hceil : ⌈(100001 : ℚ) / 100000 / (1 / ((1 : ℕ) : ℚ))⌉₊ = 2 := by
    rw [Nat.ceil_eq_iff (by norm_num)]
    norm_num
  have hrange : ece_range 1 = [0, 1] := by
    rw [ece_range, hceil]
    norm_num [List.range_succ]
  have hbins : ece_bins 1 = [(0, 1)] := by
    rw [ece_bins, hrange]
    rfl
  have hsel : ece_sel pred ref 0 1 = List.zip pred ref := by
    rw [ece_sel, List.filter_eq_self]
    intro a ha
    have hp := (List.of_mem_zip ha).1
    have := hall a.1 hp
    simp only [this, decide_eq_true_eq]
    norm_num
  have hzlen : (List.zip pred ref).length = pred.length := by
    rw [List.length_zip, hlen, min_self]
  have hfst : (List.zip pred ref).map Prod.fst = pred :=
    List.map_fst_zip pred ref (le_of_eq hlen.symm)
  have hsnd : (List.zip pred ref).map Prod.snd = ref :=
    List.map_snd_zip pred ref (le_of_eq hlen)
  have hn : ((pred.length : ℚ)) ≠ 0 := by
    exact_mod_cast Nat.pos_iff_ne_zero.mp hpos
  have hmean : npmean pred = 7/10 := by
    rw [npmean, list_sum_of_const pred (7/10) hall]
    field_simp
    ring
  have hval : ece_bin_value pred ref 0 1 = (pred.length : ℚ) * (1/5) := by
    rw [ece_bin_value, hsel, hzlen, hfst, hsnd]
    rw [if_neg (Nat.pos_iff_ne_zero.mp hpos), hrate, hmean]
    norm_num
  rw [expectation_calibration_error, hbins]
  simp only [List.map_cons, List.map_nil, List.sum_cons, List.sum_nil, add_zero]
  rw [hval, hsel, hzlen]
  field_simp
  ring

/-- C9 witness: `pred = [0.7, 0.7]`, `ref = [1, 0]`. -/
theorem single_bin_calibration_witness :
    expectation_calibration_error 1 [7/10, 7/10] [1, 0] = 1/5 :=
  single_bin_calibration [7/10, 7/10] [1, 0] (by norm_num) rfl
    (by norm_num) (by norm_num)

/-- Rebuilding a pair list from its projections. -/
lemma zip_fst_snd (l : List (ℚ × ℚ)) :
    List.zip (l.map Prod.fst) (l.map Prod.snd) = l := by
  induction l with
  | nil => rfl
  | cons x xs ih =>
    cases x
    simp only [List.map_cons, List.zip_cons_cons, ih]

/-- Every bin edge produced by `ece_range` is nonnegative. -/
lemma ece_range_nonneg (nbins : ℕ) {x : ℚ} (hx : x ∈ ece_range nbins) : 0 ≤ x := by
  rw [ece_range] at hx
  rcases List.mem_map.1 hx with ⟨a, _, rfl⟩
  exact mul_nonneg (Nat.cast_nonneg a) (one_div_nonneg.mpr (Nat.cast_nonneg nbins))

/-- A bin with nonnegative lower edge selects the same voxels whether or not
the zero-probability voxels are removed first. -/
lemma ece_sel_drop_zero (pred ref : List ℚ) (lo hi : ℚ) (hlo : 0 ≤ lo) :
    ece_sel (((List.zip pred ref).filter (fun pr => pr.1 ≠ 0)).map Prod.fst)
        (((List.zip pred ref).filter (fun pr => pr.1 ≠ 0)).map Prod.snd) lo hi =
      ece_sel pred ref lo hi := by
  unfold ece_sel
  rw [zip_fst_snd, List.filter_filter]
  refine List.filter_congr (fun x _ => ?_)
  by_cases hc : lo < x.1 ∧ x.1 ≤ hi
  · have hne : x.1 ≠ 0 := by
      have : 0 < x.1 := lt_of_le_of_lt hlo hc.1
      exact ne_of_gt this
    simp [hc, hne]
  · simp [hc]

/-- C10: voxels with predicted probability exactly 0 are silently excluded from
the calibration-error computation: removing them from the input changes neither
any bin's weighted error term nor the normalizing total sample count, so
`expectation_calibration_error` is unchanged. -/
theorem calibration_ignores_zero_probability (nbins : ℕ) (pred ref : List ℚ) :
    expectation_calibration_error nbins pred ref =
      expectation_calibration_error nbins
        (((List.zip pred ref).filter (fun pr => pr.1 ≠ 0)).map Prod.fst)
        (((List.zip pred ref).filter (fun pr => pr.1 ≠ 0)).map Prod.snd) := by
  unfold expectation_calibration_error
  have hbin : ∀ b ∈ ece_bins nbins,
      ece_sel (((List.zip pred ref).filter (fun pr => pr.1 ≠ 0)).map Prod.fst)
          (((List.zip pred ref).filter (fun pr => pr.1 ≠ 0)).map Prod.snd) b.1 b.2 =
        ece_sel pred ref b.1 b.2 := by
    intro b hb
    have hlo : 0 ≤ b.1 := by
      rw [ece_bins] at hb
      rcases b with ⟨lo, hi⟩
      exact ece_range_nonneg nbins (List.of_mem_zip hb).1
    exact ece_sel_drop_zero pred ref b.1 b.2 hlo
  congr 1
  · refine congrArg List.sum (List.map_congr_left (fun b hb => ?_))
    rw [ece_bin_value, ece_bin_value, hbin b hb]
  · refine congrArg List.sum (List.map_congr_left (fun b hb => ?_))
    rw [hbin b hb]

end MetricsReloaded
